import Mathlib

/-
Verification development for tbuck (src/main.rs): granularity/bucket arithmetic,
the dual-mode aggregation state machine, and the date/time format compiler.

Instants are modelled as whole seconds since the model epoch (midnight of day
zero).  chrono's DateTime<Utc> at second resolution orders exactly like this
count; a calendar day is 86400 seconds, an hour 3600, a minute 60.  Strings are
modelled as lists of characters.
-/

namespace Tbuck

/-- Clock hour of the instant, mirroring chrono's time().hour(). -/
def hourOf (t : Nat) : Nat := t % 86400 / 3600

/-- Clock minute of the instant, mirroring chrono's time().minute(). -/
def minuteOf (t : Nat) : Nat := t % 3600 / 60

/-- Clock second of the instant, mirroring chrono's time().second(). -/
def secondOf (t : Nat) : Nat := t % 60

/-- Midnight of the instant's calendar day, mirroring DateTime::date(). -/
def dateStart (t : Nat) : Nat := t - t % 86400

/-- Date::and_hms: the instant of the given day with the given clock fields. -/
def and_hms (date h m s : Nat) : Nat := date + 3600 * h + 60 * m + s

/-- Mirrors enum Granularity of src/main.rs; magnitudes are NonZeroU32 values,
modelled as positive naturals. -/
inductive Granularity where
  | Second (n : ℕ+)
  | Minute (n : ℕ+)
  | Hour (n : ℕ+)
deriving DecidableEq

/-- Duration of one granularity unit in seconds. -/
def Granularity.stepSeconds : Granularity → Nat
  | .Second n => n
  | .Minute n => 60 * n
  | .Hour n => 3600 * n

/-- Mirrors Granularity::successor: add one granularity unit's duration
(Duration::seconds / minutes / hours). -/
def Granularity.successor (g : Granularity) (t : Nat) : Nat :=
  match g with
  | .Second n => t + (n : ℕ)
  | .Minute n => t + 60 * (n : ℕ)
  | .Hour n => t + 3600 * (n : ℕ)

/-- Mirrors Granularity::bucketize: truncate the appropriate clock field down
to a multiple of the magnitude, zeroing lower-order fields. -/
def Granularity.bucketize (g : Granularity) (t : Nat) : Nat :=
  match g with
  | .Second s => and_hms (dateStart t) (hourOf t) (minuteOf t) (secondOf t / (s : ℕ) * (s : ℕ))
  | .Minute m => and_hms (dateStart t) (hourOf t) (minuteOf t / (m : ℕ) * (m : ℕ)) 0
  | .Hour h => and_hms (dateStart t) (hourOf t / (h : ℕ) * (h : ℕ)) 0 0

/-- Mirrors str::find for a single character: byte index of the first
occurrence (all inputs of interest are ASCII, so byte = char index). -/
def findChar (c : Char) : List Char → Option Nat
  | [] => none
  | x :: xs => if x = c then some 0 else (findChar c xs).map (· + 1)

/-- Numeric value of a digit run (callers check the digits first). -/
def digitsToNat (ds : List Char) : Nat := ds.foldl (fun a c => 10 * a + (c.toNat - 48)) 0

/-- Mirrors str::parse::<u32>: an optional leading plus sign, then one or more
ASCII digits, rejecting values that overflow 32 bits. -/
def parseU32 (cs : List Char) : Option Nat :=
  let ds := match cs with
    | '+' :: rest => rest
    | _ => cs
  if ds.isEmpty then none
  else if ds.all Char.isDigit then
    let v := digitsToNat ds
    if v < 4294967296 then some v else none
  else none

/-- Mirrors .parse::<u32>().ok().and_then(NonZeroU32::new).map(ctor). -/
def toUnit (mk : ℕ+ → Granularity) (pre : List Char) : Option Granularity :=
  match parseU32 pre with
  | some v => if h : 0 < v then some (mk ⟨v, h⟩) else none
  | none => none

/-- Mirrors Granularity::parse: look for an 's' anywhere first, then an 'm',
then an 'h'; the text before the first occurrence of the chosen letter must
parse as a nonzero u32. -/
def Granularity.parse (text : List Char) : Option Granularity :=
  match findChar 's' text with
  | some i => toUnit .Second (text.take i)
  | none =>
    match findChar 'm' text with
    | some i => toUnit .Minute (text.take i)
    | none =>
      match findChar 'h' text with
      | some i => toUnit .Hour (text.take i)
      | none => none

theorem stepSeconds_pos (g : Granularity) : 0 < g.stepSeconds := by
  cases g with
  | Second n => exact n.pos
  | Minute n => have := n.pos; simp [Granularity.stepSeconds]
  | Hour n => have := n.pos; simp [Granularity.stepSeconds]

theorem successor_eq_add_step (g : Granularity) (t : Nat) :
    g.successor t = t + g.stepSeconds := by
  cases g <;> rfl

theorem lt_successor (g : Granularity) (t : Nat) : t < g.successor t := by
  rw [successor_eq_add_step]
  exact Nat.lt_add_of_pos_right (stepSeconds_pos g)

/-- Structural engine for the gap-filling while loop: the fuel only bounds
the iteration count (each iteration moves next up by at least one second, so
entry - next iterations always suffice) and never changes the result. -/
def gapFillAux (g : Granularity) : Nat → Nat → Nat → List (Nat × Nat)
  | 0, _, _ => []
  | fuel + 1, next, entry =>
    if next < entry then (next, 0) :: gapFillAux g fuel (g.successor next) entry else []

/-- The gap-filling while loop shared by the streaming branch of
handle_bucket_entry and the normal branch of finish: starting from a
candidate bucket, emit a zero-count line and step one granularity unit while
still strictly below the target bucket. -/
def gapFill (g : Granularity) (next entry : Nat) : List (Nat × Nat) :=
  gapFillAux g (entry - next) next entry

theorem gapFillAux_fuel_irrelevant (g : Granularity) :
    ∀ fuel fuel2 next entry : Nat, entry - next ≤ fuel → entry - next ≤ fuel2 →
      gapFillAux g fuel next entry = gapFillAux g fuel2 next entry := by
  intro fuel
  induction fuel with
  | zero =>
    intro fuel2 next entry h1 h2
    cases fuel2 with
    | zero => rfl
    | succ f2 =>
      have hlt : ¬ next < entry := by omega
      simp [gapFillAux, hlt]
  | succ f ih =>
    intro fuel2 next entry h1 h2
    cases fuel2 with
    | zero =>
      have hlt : ¬ next < entry := by omega
      simp [gapFillAux, hlt]
    | succ f2 =>
      by_cases hlt : next < entry
      · have hs := lt_successor g next
        simp only [gapFillAux, if_pos hlt]
        rw [ih f2 (g.successor next) entry (by omega) (by omega)]
      · simp [gapFillAux, hlt]

theorem gapFill_of_not_lt (g : Granularity) {next entry : Nat} (h : ¬ next < entry) :
    gapFill g next entry = [] := by
  unfold gapFill
  have : entry - next = 0 := by omega
  rw [this]
  rfl

theorem gapFill_of_lt (g : Granularity) {next entry : Nat} (h : next < entry) :
    gapFill g next entry = (next, 0) :: gapFill g (g.successor next) entry := by
  unfold gapFill
  obtain ⟨k, hk⟩ : ∃ k, entry - next = k + 1 := ⟨entry - next - 1, by omega⟩
  rw [hk]
  simp only [gapFillAux, if_pos h]
  have hs := lt_successor g next
  rw [gapFillAux_fuel_irrelevant g k (entry - g.successor next) (g.successor next) entry
    (by omega) (by omega)]

/-- Mirrors enum DateTimeOrder of src/main.rs. -/
inductive DateTimeOrder where
  | Ascending
  | Descending
deriving DecidableEq

/-- Mirrors enum Mode of src/main.rs. -/
inductive Mode where
  | Normal
  | Stream
deriving DecidableEq

/-- The fields of struct Args that drive the aggregation state machine
(format, match index and inputs are consumed before entries reach it). -/
structure Args where
  granularity : Granularity
  fill_empty_buckets : Bool
  order : DateTimeOrder
  tolerant : Bool
deriving DecidableEq

/-- Mirrors enum Runner: normal mode holds the bucket-to-count map (modelled
as an association list; only its key-to-value mapping matters because finish
sorts it), stream mode holds the current count and optional current bucket. -/
inductive Runner where
  | Normal (buckets : List (Nat × Nat))
  | Stream (count : Nat) (bucket : Option Nat)
deriving DecidableEq

/-- Mirrors Runner::from_mode (the normal map starts empty). -/
def Runner.from_mode : Mode → Runner
  | .Normal => .Normal []
  | .Stream => .Stream 0 none

/-- Mirrors *buckets.entry(entry).or_insert(0) += 1 on the association list. -/
def recordEntry (buckets : List (Nat × Nat)) (entry : Nat) : List (Nat × Nat) :=
  match buckets with
  | [] => [(entry, 1)]
  | (k, c) :: rest => if k = entry then (k, c + 1) :: rest else (k, c) :: recordEntry rest entry

/-- Count mapped to a bucket by the association list (0 when absent). -/
def lookupCount (buckets : List (Nat × Nat)) (b : Nat) : Nat :=
  match buckets with
  | [] => 0
  | (k, c) :: rest => if k = b then c else lookupCount rest b

/-- Mirrors Runner::handle_bucket_entry.  The result is none when the code
panics (the intolerant non-monotonic case), otherwise the new runner state
together with the lines this call wrote to stdout, in order.  A line is a
(bucket, count) pair; rendering to text is I/O outside the model. -/
def Runner.handle_bucket_entry (self : Runner) (entry : Nat) (args : Args) :
    Option (Runner × List (Nat × Nat)) :=
  match self with
  | .Normal buckets => some (.Normal (recordEntry buckets entry), [])
  | .Stream count bucket =>
    match bucket with
    | none => some (.Stream 1 (some entry), [])
    | some current_bucket =>
      match args.order, compare entry current_bucket with
      | _, .eq => some (.Stream (count + 1) (some current_bucket), [])
      | .Ascending, .lt | .Descending, .gt =>
        if args.tolerant then some (.Stream count (some current_bucket), []) else none
      | .Ascending, .gt | .Descending, .lt =>
        some (.Stream 1 (some entry),
          (current_bucket, count) ::
            (if args.fill_empty_buckets then
              gapFill args.granularity (args.granularity.successor current_bucket) entry
            else []))

/-- Sentinel initial value of prev_bucket in Runner::finish, modelling
chrono::MAX_DATE.and_hms(0, 0, 0): an instant later than every bucket a
parsed entry can produce (chrono's maximal date lies near year 262143). -/
def maxDate : Nat := 8210298412800

/-- Insertion step of the sort used to model sort_unstable_by (keys are
distinct, so any comparison sort yields the same list). -/
def insertBy (le : Nat × Nat → Nat × Nat → Bool) (x : Nat × Nat) :
    List (Nat × Nat) → List (Nat × Nat)
  | [] => [x]
  | y :: ys => if le x y then x :: y :: ys else y :: insertBy le x ys

/-- Comparison sort modelling Vec::sort_unstable_by. -/
def sortPairs (le : Nat × Nat → Nat × Nat → Bool) (l : List (Nat × Nat)) : List (Nat × Nat) :=
  l.foldr (insertBy le) []

/-- Key order used by Runner::finish for each display order. -/
def orderLe (order : DateTimeOrder) (a b : Nat × Nat) : Bool :=
  match order with
  | .Ascending => decide (a.1 ≤ b.1)
  | .Descending => decide (b.1 ≤ a.1)

/-- The emission loop of Runner::finish in normal mode: for each sorted
bucket, first run the gap-fill while loop from prev_bucket (when filling),
then print the bucket and set prev_bucket to its successor. -/
def emitBuckets (g : Granularity) (fill : Bool) : Nat → List (Nat × Nat) → List (Nat × Nat)
  | _, [] => []
  | prev, (b, c) :: rest =>
    (if fill then gapFill g prev b else []) ++ (b, c) :: emitBuckets g fill (g.successor b) rest

/-- Mirrors Runner::finish: normal mode sorts the map per the display order
and emits with gap-filling from the maxDate sentinel; stream mode prints the
pending bucket when there is one. -/
def Runner.finish (self : Runner) (args : Args) : List (Nat × Nat) :=
  match self with
  | .Normal buckets =>
    emitBuckets args.granularity args.fill_empty_buckets maxDate
      (sortPairs (orderLe args.order) buckets)
  | .Stream count bucket =>
    match bucket with
    | some b => [(b, count)]
    | none => []

/-- The per-entry loop of main over already-extracted instants: bucketize each
instant and feed it to the runner, accumulating the lines written to stdout.
Returns the state after the last entry, or none once the runner panics. -/
def runEntries (args : Args) : Runner → List Nat → List (Nat × Nat) × Option Runner
  | st, [] => ([], some st)
  | st, t :: rest =>
    match st.handle_bucket_entry (args.granularity.bucketize t) args with
    | none => ([], none)
    | some (st2, out) =>
      let r := runEntries args st2 rest
      (out ++ r.1, r.2)

/-- Whole-program output on a list of extracted instants: all lines written to
stdout in order, and whether the run died with the fatal non-monotonic panic
(true) or completed and ran Runner::finish (false). -/
def runProgram (args : Args) (mode : Mode) (instants : List Nat) : List (Nat × Nat) × Bool :=
  match runEntries args (Runner.from_mode mode) instants with
  | (out, some st) => (out ++ st.finish args, false)
  | (out, none) => (out, true)

theorem bucketize_second_eq (n : ℕ+) (t : Nat) :
    (Granularity.Second n).bucketize t = t - t % 60 + t % 60 / (n : ℕ) * (n : ℕ) := by
  simp only [Granularity.bucketize, and_hms, dateStart, hourOf, minuteOf, secondOf]
  generalize t % 60 / (n : ℕ) * (n : ℕ) = k
  omega

theorem bucketize_minute_eq (m : ℕ+) (t : Nat) :
    (Granularity.Minute m).bucketize t = t - t % 3600 + 60 * (t % 3600 / 60 / (m : ℕ) * (m : ℕ)) := by
  simp only [Granularity.bucketize, and_hms, dateStart, hourOf, minuteOf, secondOf]
  generalize t % 3600 / 60 / (m : ℕ) * (m : ℕ) = k
  omega

theorem bucketize_hour_eq (h : ℕ+) (t : Nat) :
    (Granularity.Hour h).bucketize t = t - t % 86400 + 3600 * (t % 86400 / 3600 / (h : ℕ) * (h : ℕ)) := by
  simp only [Granularity.bucketize, and_hms, dateStart, hourOf, minuteOf, secondOf]
  generalize t % 86400 / 3600 / (h : ℕ) * (h : ℕ) = k
  omega

theorem bucketize_second_mod60 (n : ℕ+) (t : Nat) :
    (Granularity.Second n).bucketize t % 60 = t % 60 / (n : ℕ) * (n : ℕ) := by
  rw [bucketize_second_eq]
  have h1 : t % 60 / (n : ℕ) * (n : ℕ) ≤ t % 60 := Nat.div_mul_le_self _ _
  generalize hk : t % 60 / (n : ℕ) * (n : ℕ) = k at h1 ⊢
  omega

theorem bucketize_minute_mod3600 (m : ℕ+) (t : Nat) :
    (Granularity.Minute m).bucketize t % 3600 = 60 * (t % 3600 / 60 / (m : ℕ) * (m : ℕ)) := by
  rw [bucketize_minute_eq]
  have h1 : t % 3600 / 60 / (m : ℕ) * (m : ℕ) ≤ t % 3600 / 60 := Nat.div_mul_le_self _ _
  generalize hk : t % 3600 / 60 / (m : ℕ) * (m : ℕ) = k at h1 ⊢
  omega

theorem bucketize_hour_mod86400 (h : ℕ+) (t : Nat) :
    (Granularity.Hour h).bucketize t % 86400 = 3600 * (t % 86400 / 3600 / (h : ℕ) * (h : ℕ)) := by
  rw [bucketize_hour_eq]
  have h1 : t % 86400 / 3600 / (h : ℕ) * (h : ℕ) ≤ t % 86400 / 3600 := Nat.div_mul_le_self _ _
  generalize hk : t % 86400 / 3600 / (h : ℕ) * (h : ℕ) = k at h1 ⊢
  omega

theorem valid_second_iff (n : ℕ+) (t : Nat) :
    (Granularity.Second n).bucketize t = t ↔ (n : ℕ) ∣ t % 60 := by
  constructor
  · intro hval
    rw [bucketize_second_eq] at hval
    have h1 : t % 60 / (n : ℕ) * (n : ℕ) ≤ t % 60 := Nat.div_mul_le_self _ _
    have h2 : (n : ℕ) ∣ t % 60 / (n : ℕ) * (n : ℕ) := dvd_mul_left _ _
    have h3 : t % 60 ≤ t := Nat.mod_le _ _
    have h4 : t % 60 / (n : ℕ) * (n : ℕ) = t % 60 := by
      generalize hk : t % 60 / (n : ℕ) * (n : ℕ) = k at h1 hval
      omega
    rwa [h4] at h2
  · intro hdvd
    rw [bucketize_second_eq, Nat.div_mul_cancel hdvd]
    have h3 : t % 60 ≤ t := Nat.mod_le _ _
    omega

theorem valid_minute_iff (m : ℕ+) (t : Nat) :
    (Granularity.Minute m).bucketize t = t ↔ 60 * (m : ℕ) ∣ t % 3600 := by
  constructor
  · intro hval
    rw [bucketize_minute_eq] at hval
    have h1 : t % 3600 / 60 / (m : ℕ) * (m : ℕ) ≤ t % 3600 / 60 := Nat.div_mul_le_self _ _
    have h2 : (m : ℕ) ∣ t % 3600 / 60 / (m : ℕ) * (m : ℕ) := dvd_mul_left _ _
    have h3 : t % 3600 ≤ t := Nat.mod_le _ _
    have h4 : 60 * (t % 3600 / 60 / (m : ℕ) * (m : ℕ)) = t % 3600 := by
      generalize hk : t % 3600 / 60 / (m : ℕ) * (m : ℕ) = k at h1 hval
      omega
    rw [← h4]
    exact mul_dvd_mul_left 60 h2
  · intro hdvd
    obtain ⟨c, hc⟩ := hdvd
    have h5 : t % 3600 / 60 = (m : ℕ) * c := by
      rw [hc, mul_assoc, Nat.mul_div_cancel_left _ (by norm_num : (0:ℕ) < 60)]
    rw [bucketize_minute_eq, h5, Nat.mul_div_cancel_left c m.pos]
    have h3 : t % 3600 ≤ t := Nat.mod_le _ _
    have h6 : 60 * (c * (m : ℕ)) = t % 3600 := by rw [hc]; ring
    omega

theorem valid_hour_iff (h : ℕ+) (t : Nat) :
    (Granularity.Hour h).bucketize t = t ↔ 3600 * (h : ℕ) ∣ t % 86400 := by
  constructor
  · intro hval
    rw [bucketize_hour_eq] at hval
    have h1 : t % 86400 / 3600 / (h : ℕ) * (h : ℕ) ≤ t % 86400 / 3600 := Nat.div_mul_le_self _ _
    have h2 : (h : ℕ) ∣ t % 86400 / 3600 / (h : ℕ) * (h : ℕ) := dvd_mul_left _ _
    have h3 : t % 86400 ≤ t := Nat.mod_le _ _
    have h4 : 3600 * (t % 86400 / 3600 / (h : ℕ) * (h : ℕ)) = t % 86400 := by
      generalize hk : t % 86400 / 3600 / (h : ℕ) * (h : ℕ) = k at h1 hval
      omega
    rw [← h4]
    exact mul_dvd_mul_left 3600 h2
  · intro hdvd
    obtain ⟨c, hc⟩ := hdvd
    have h5 : t % 86400 / 3600 = (h : ℕ) * c := by
      rw [hc, mul_assoc, Nat.mul_div_cancel_left _ (by norm_num : (0:ℕ) < 3600)]
    rw [bucketize_hour_eq, h5, Nat.mul_div_cancel_left c h.pos]
    have h3 : t % 86400 ≤ t := Nat.mod_le _ _
    have h6 : 3600 * (c * (h : ℕ)) = t % 86400 := by rw [hc]; ring
    omega

/-- The magnitude divides the span of its clock field's unit scope: 60
seconds per minute, 60 minutes per hour, 24 hours per day. -/
def dividesUnitScope : Granularity → Prop
  | .Second n => (n : ℕ) ∣ 60
  | .Minute m => (m : ℕ) ∣ 60
  | .Hour h => (h : ℕ) ∣ 24

instance (g : Granularity) : Decidable (dividesUnitScope g) :=
  match g with
  | .Second n => inferInstanceAs (Decidable ((n : ℕ) ∣ 60))
  | .Minute m => inferInstanceAs (Decidable ((m : ℕ) ∣ 60))
  | .Hour h => inferInstanceAs (Decidable ((h : ℕ) ∣ 24))

/-- When the magnitude divides its unit scope, the buckets fixed by
bucketize are exactly the multiples of one granularity unit's duration. -/
theorem valid_iff_step_dvd {g : Granularity} (hg : dividesUnitScope g) (t : Nat) :
    g.bucketize t = t ↔ g.stepSeconds ∣ t := by
  cases g with
  | Second n =>
    rw [valid_second_iff]
    exact Nat.dvd_mod_iff (n := 60) hg
  | Minute m =>
    rw [valid_minute_iff]
    have h60 : 60 * (m : ℕ) ∣ 3600 := by
      have := mul_dvd_mul_left 60 (hg : (m : ℕ) ∣ 60)
      simpa using this
    show 60 * (m : ℕ) ∣ t % 3600 ↔ Granularity.stepSeconds (.Minute m) ∣ t
    rw [Nat.dvd_mod_iff h60]
    rfl
  | Hour h =>
    rw [valid_hour_iff]
    have h24 : 3600 * (h : ℕ) ∣ 86400 := by
      have := mul_dvd_mul_left 3600 (hg : (h : ℕ) ∣ 24)
      simpa using this
    show 3600 * (h : ℕ) ∣ t % 86400 ↔ Granularity.stepSeconds (.Hour h) ∣ t
    rw [Nat.dvd_mod_iff h24]
    rfl

theorem bucketize_le (g : Granularity) (t : Nat) : g.bucketize t ≤ t := by
  cases g with
  | Second n =>
    rw [bucketize_second_eq]
    have h1 : t % 60 / (n : ℕ) * (n : ℕ) ≤ t % 60 := Nat.div_mul_le_self _ _
    have h3 : t % 60 ≤ t := Nat.mod_le _ _
    generalize hk : t % 60 / (n : ℕ) * (n : ℕ) = k at h1
    omega
  | Minute m =>
    rw [bucketize_minute_eq]
    have h1 : t % 3600 / 60 / (m : ℕ) * (m : ℕ) ≤ t % 3600 / 60 := Nat.div_mul_le_self _ _
    have h3 : t % 3600 ≤ t := Nat.mod_le _ _
    generalize hk : t % 3600 / 60 / (m : ℕ) * (m : ℕ) = k at h1
    omega
  | Hour h =>
    rw [bucketize_hour_eq]
    have h1 : t % 86400 / 3600 / (h : ℕ) * (h : ℕ) ≤ t % 86400 / 3600 := Nat.div_mul_le_self _ _
    have h3 : t % 86400 ≤ t := Nat.mod_le _ _
    generalize hk : t % 86400 / 3600 / (h : ℕ) * (h : ℕ) = k at h1
    omega

theorem bucketize_idem (g : Granularity) (t : Nat) :
    g.bucketize (g.bucketize t) = g.bucketize t := by
  cases g with
  | Second n =>
    rw [valid_second_iff, bucketize_second_mod60]
    exact dvd_mul_left _ _
  | Minute m =>
    rw [valid_minute_iff, bucketize_minute_mod3600]
    exact mul_dvd_mul_left 60 (dvd_mul_left _ _)
  | Hour h =>
    rw [valid_hour_iff, bucketize_hour_mod86400]
    exact mul_dvd_mul_left 3600 (dvd_mul_left _ _)

/-- The field-level shape the spec ascribes to floor's result: the truncated
field is a multiple of the magnitude within its unit scope, and the
lower-order fields are zero for minute and hour granularities. -/
def truncatedFieldOk : Granularity → Nat → Prop
  | .Second n, b => (n : ℕ) ∣ secondOf b
  | .Minute m, b => (m : ℕ) ∣ minuteOf b ∧ secondOf b = 0
  | .Hour h, b => (h : ℕ) ∣ hourOf b ∧ minuteOf b = 0 ∧ secondOf b = 0

theorem bucketize_truncatedFieldOk (g : Granularity) (t : Nat) :
    truncatedFieldOk g (g.bucketize t) := by
  cases g with
  | Second n =>
    show (n : ℕ) ∣ secondOf ((Granularity.Second n).bucketize t)
    rw [secondOf, bucketize_second_mod60]
    exact dvd_mul_left _ _
  | Minute m =>
    have hb := bucketize_minute_mod3600 m t
    constructor
    · show (m : ℕ) ∣ (Granularity.Minute m).bucketize t % 3600 / 60
      rw [hb, Nat.mul_div_cancel_left _ (by norm_num : (0:ℕ) < 60)]
      exact dvd_mul_left _ _
    · show (Granularity.Minute m).bucketize t % 60 = 0
      have h2 : (Granularity.Minute m).bucketize t % 3600 % 60 = 0 := by
        rw [hb]
        omega
      omega
  | Hour h =>
    have hb := bucketize_hour_mod86400 h t
    refine ⟨?_, ?_, ?_⟩
    · show (h : ℕ) ∣ (Granularity.Hour h).bucketize t % 86400 / 3600
      rw [hb, Nat.mul_div_cancel_left _ (by norm_num : (0:ℕ) < 3600)]
      exact dvd_mul_left _ _
    · show (Granularity.Hour h).bucketize t % 3600 / 60 = 0
      have h2 : (Granularity.Hour h).bucketize t % 86400 % 3600 = 0 := by
        rw [hb]
        omega
      omega
    · show (Granularity.Hour h).bucketize t % 60 = 0
      have h2 : (Granularity.Hour h).bucketize t % 86400 % 60 = 0 := by
        rw [hb]
        omega
      omega

/-- Repeated application of successor: the chain of buckets the program
steps through.  succChain g b k is the k-th successor of b. -/
def succChain (g : Granularity) (b : Nat) : Nat → Nat
  | 0 => b
  | k + 1 => g.successor (succChain g b k)

/-- Claim C5: for every instant x and granularity g, floor (bucketize) is
idempotent, its result is at most x, the truncated field is a multiple of
the magnitude within its unit scope with lower-order fields zeroed for
minute and hour granularities, and successor of the floor is strictly
greater than the floor. -/
theorem C5_floor_properties (g : Granularity) (x : Nat) :
    g.bucketize (g.bucketize x) = g.bucketize x ∧
    g.bucketize x ≤ x ∧
    truncatedFieldOk g (g.bucketize x) ∧
    g.bucketize x < g.successor (g.bucketize x) :=
  ⟨bucketize_idem g x, bucketize_le g x, bucketize_truncatedFieldOk g x, lt_successor g _⟩

/-- Claim C4 (counterexample): with 7-second granularity the instant 56
seconds past midnight is a valid bucket, but its successor 63 is not (its
floor is 60), so successor does not always map valid buckets to valid
buckets. -/
theorem C4_counterexample :
    (Granularity.Second 7).bucketize 56 = 56 ∧
    (Granularity.Second 7).successor 56 = 63 ∧
    ¬ (Granularity.Second 7).bucketize ((Granularity.Second 7).successor 56) =
        (Granularity.Second 7).successor 56 := by
  decide

/-- Claim C4 (amended): successor always adds exactly one granularity
unit's duration and is strictly greater than its input; when additionally
the magnitude divides its unit scope (60 for second and minute
granularities, 24 for hours), successor carries valid buckets to valid
buckets, and chains of repeated successor calls from a valid bucket are
strictly increasing with every element a valid bucket. -/
theorem C4_successor_amended (g : Granularity) (b : Nat)
    (hg : dividesUnitScope g) (hb : g.bucketize b = b) :
    g.successor b = b + g.stepSeconds ∧
    b < g.successor b ∧
    g.bucketize (g.successor b) = g.successor b ∧
    (∀ k : Nat, succChain g b k < succChain g b (k + 1) ∧
      g.bucketize (succChain g b k) = succChain g b k) := by
  have hpres : ∀ v : Nat, g.bucketize v = v → g.bucketize (g.successor v) = g.successor v := by
    intro v hv
    rw [valid_iff_step_dvd hg] at hv ⊢
    rw [successor_eq_add_step]
    exact dvd_add hv dvd_rfl
  refine ⟨successor_eq_add_step g b, lt_successor g b, hpres b hb, ?_⟩
  intro k
  refine ⟨lt_successor g _, ?_⟩
  induction k with
  | zero => exact hb
  | succ k ih => exact hpres _ ih

/-- Witness for C4 (amended) at 5-second granularity and the valid bucket
55 seconds past midnight: the successor 60 is again a valid bucket. -/
theorem C4_witness :
    (Granularity.Second 5).bucketize ((Granularity.Second 5).successor 55) =
      (Granularity.Second 5).successor 55 :=
  (C4_successor_amended (Granularity.Second 5) 55 (by decide) (by decide)).2.2.1

theorem lookupCount_recordEntry (l : List (Nat × Nat)) (b : Nat) :
    lookupCount (recordEntry l b) b = lookupCount l b + 1 := by
  induction l with
  | nil => simp [recordEntry, lookupCount]
  | cons hd tl ih =>
    obtain ⟨k, c⟩ := hd
    by_cases hk : k = b
    · simp [recordEntry, lookupCount, hk]
    · simp [recordEntry, lookupCount, hk, ih]

/-- Claim C1 (counterexample): streaming mode, ascending, intolerant,
1-minute granularity, on instants 10:00:30, 10:00:45, 09:59:00 (seconds
36030, 36045, 35940 of the model day): the run dies with the fatal
non-monotonic panic having emitted nothing, so the claimed line
(10:00, 2) - bucket second 36000 - is never output. -/
theorem C1_counterexample :
    runProgram ⟨.Minute 1, true, .Ascending, false⟩ .Stream [36030, 36045, 35940] = ([], true) ∧
    ([] : List (Nat × Nat)) ≠ [(36000, 2)] := by
  decide

/-- Claim C1 (amended): on that input the program terminates with the fatal
non-monotonic error without emitting any line; the pending current bucket
10:00 with count 2 (which only Runner::finish would print) is discarded. -/
theorem C1_amended :
    runProgram ⟨.Minute 1, true, .Ascending, false⟩ .Stream [36030, 36045, 35940] = ([], true) ∧
    runEntries ⟨.Minute 1, true, .Ascending, false⟩ (Runner.from_mode .Stream) [36030, 36045] =
      ([], some (.Stream 2 (some 36000))) := by
  decide

/-- Claim C2 (failing input): streaming mode, descending, gap-fill enabled,
1-minute granularity, instants 10:02:05 then 10:00:10 (seconds 36125,
36010).  The new bucket 10:00 lies strictly after the current bucket 10:02
in descending order, so per the claim the zero-count line for the strictly
intervening bucket 10:01 (second 36060) must be emitted; the code emits
only the closed bucket's line and the finish line, because the fill loop's
condition successor(current) < entry is immediately false when walking
backward in time. -/
theorem C2_descending_gap_lines_missing :
    runProgram ⟨.Minute 1, true, .Descending, false⟩ .Stream [36125, 36010] =
      ([(36120, 1), (36000, 1)], false) ∧
    (36060, 0) ∉ (runProgram ⟨.Minute 1, true, .Descending, false⟩ .Stream [36125, 36010]).1 := by
  decide

/-- Claim C3 (failing input): batch mode, descending display order,
gap-fill enabled, 1-minute granularity, instants 10:00:00 and 10:02:00
(seconds 36000, 36120).  The claim requires the missing bucket 10:01
(second 36060) to appear with count 0 between the two observed rows; the
code emits no gap row at all, because prev_bucket is always the successor
of the previously printed (larger) bucket, so the fill loop's condition
prev_bucket < bucket never holds while walking descending. -/
theorem C3_descending_gap_rows_missing :
    runProgram ⟨.Minute 1, true, .Descending, false⟩ .Normal [36000, 36120] =
      ([(36120, 1), (36000, 1)], false) ∧
    (36060, 0) ∉ (runProgram ⟨.Minute 1, true, .Descending, false⟩ .Normal [36000, 36120]).1 := by
  decide

/-- Claim C6: batch mode, ascending, gap-fill enabled, 1-minute
granularity: recording 10:00:00, 10:00:00, 10:02:00 (seconds 36000, 36000,
36120) and finishing emits exactly (10:00, 2), (10:01, 0), (10:02, 1) in
that order; and record increments the mapped count of a bucket, creating
it with count 1 when absent. -/
theorem C6_batch_ascending_gap_fill :
    runProgram ⟨.Minute 1, true, .Ascending, false⟩ .Normal [36000, 36000, 36120] =
      ([(36000, 2), (36060, 0), (36120, 1)], false) ∧
    ∀ (l : List (Nat × Nat)) (b : Nat), lookupCount (recordEntry l b) b = lookupCount l b + 1 :=
  ⟨by decide, lookupCount_recordEntry⟩

theorem findChar_eq_none {c : Char} {l : List Char} (h : c ∉ l) : findChar c l = none := by
  induction l with
  | nil => rfl
  | cons x xs ih =>
    have hx : ¬ x = c := by
      intro he
      exact h (by simp [he])
    have hxs : c ∉ xs := by
      intro hm
      exact h (by simp [hm])
    simp [findChar, hx, ih hxs]

theorem findChar_append_self {c : Char} {pre : List Char} (h : c ∉ pre) (suf : List Char) :
    findChar c (pre ++ c :: suf) = some pre.length := by
  induction pre with
  | nil => simp [findChar]
  | cons x xs ih =>
    have hx : ¬ x = c := by
      intro he
      exact h (by simp [he])
    have hxs : c ∉ xs := by
      intro hm
      exact h (by simp [hm])
    simp [findChar, hx, ih hxs]

theorem take_length_append (pre suf : List Char) : (pre ++ suf).take pre.length = pre := by
  induction pre with
  | nil => rfl
  | cons x xs ih => simp [List.take_succ_cons, ih]

theorem toUnit_pos (mk : ℕ+ → Granularity) {pre : List Char} {v : Nat}
    (hparse : parseU32 pre = some v) (hv : 0 < v) : toUnit mk pre = some (mk ⟨v, hv⟩) := by
  simp only [toUnit, hparse]
  rw [dif_pos hv]

theorem toUnit_rejects (mk : ℕ+ → Granularity) {pre : List Char}
    (hparse : parseU32 pre = none ∨ parseU32 pre = some 0) : toUnit mk pre = none := by
  rcases hparse with h | h <;> simp [toUnit, h]

/-- Claim C10: in Granularity::parse, every character after the first
occurrence of the selected unit letter is ignored: whenever the prefix
before that letter parses as a positive integer the string is accepted,
whatever the trailing text ('s' is selected when present anywhere; 'm' when
's' is absent; 'h' when both are absent).  For example "5s500x" parses as
Seconds(5). -/
theorem C10_trailing_text_ignored :
    (∀ (pre suf : List Char) (v : Nat) (hv : 0 < v), 's' ∉ pre → parseU32 pre = some v →
      Granularity.parse (pre ++ 's' :: suf) = some (.Second ⟨v, hv⟩)) ∧
    (∀ (pre suf : List Char) (v : Nat) (hv : 0 < v), 's' ∉ pre → 's' ∉ suf → 'm' ∉ pre →
      parseU32 pre = some v →
      Granularity.parse (pre ++ 'm' :: suf) = some (.Minute ⟨v, hv⟩)) ∧
    (∀ (pre suf : List Char) (v : Nat) (hv : 0 < v), 's' ∉ pre → 's' ∉ suf → 'm' ∉ pre →
      'm' ∉ suf → 'h' ∉ pre → parseU32 pre = some v →
      Granularity.parse (pre ++ 'h' :: suf) = some (.Hour ⟨v, hv⟩)) ∧
    Granularity.parse ("5s500x".data) = some (.Second 5) := by
  refine ⟨?_, ?_, ?_, by decide⟩
  · intro pre suf v hv hs hparse
    simp only [Granularity.parse, findChar_append_self hs, take_length_append]
    exact toUnit_pos _ hparse hv
  · intro pre suf v hv hs1 hs2 hm hparse
    have hsall : 's' ∉ pre ++ 'm' :: suf := by
      simp [hs1, hs2]
    simp only [Granularity.parse, findChar_eq_none hsall, findChar_append_self hm,
      take_length_append]
    exact toUnit_pos _ hparse hv
  · intro pre suf v hv hs1 hs2 hm1 hm2 hh hparse
    have hsall : 's' ∉ pre ++ 'h' :: suf := by
      simp [hs1, hs2]
    have hmall : 'm' ∉ pre ++ 'h' :: suf := by
      simp [hm1, hm2]
    simp only [Granularity.parse, findChar_eq_none hsall, findChar_eq_none hmall,
      findChar_append_self hh, take_length_append]
    exact toUnit_pos _ hparse hv

/-- Witness for C10 at prefix "7", unit 'm', trailing text "99": the parse
accepts and yields Minutes(7) despite the trailing digits. -/
theorem C10_witness :
    Granularity.parse ("7".data ++ 'm' :: "99".data) = some (.Minute ⟨7, by norm_num⟩) :=
  C10_trailing_text_ignored.2.1 "7".data "99".data 7 (by norm_num) (by decide) (by decide)
    (by decide) (by decide)

/-- Definition following the words of claim C9, for comparison against the
source's Granularity::parse (it is not translated from the source): the
first occurrence of any unit character in the string determines the unit
used, and the prefix before it must parse as a positive integer. -/
def findUnitChar : List Char → Option (Nat × Char)
  | [] => none
  | x :: xs =>
    if x = 's' ∨ x = 'm' ∨ x = 'h' then some (0, x)
    else (findUnitChar xs).map (fun p => (p.1 + 1, p.2))

/-- Continuation of the claim-C9 reading: split at the first unit character
found anywhere in the string, whichever of the three letters it is. -/
def parseFirstUnit (text : List Char) : Option Granularity :=
  match findUnitChar text with
  | none => none
  | some (i, c) =>
    match parseU32 (text.take i) with
    | none => none
    | some v =>
      if h : 0 < v then
        some (if c = 's' then .Second ⟨v, h⟩ else if c = 'm' then .Minute ⟨v, h⟩ else .Hour ⟨v, h⟩)
      else none

/-- Claim C9 (counterexample): on "1ms" the claim's rule - the first unit
character in the string ('m') determines the unit - yields Minutes(1), but
the code checks for 's' first, splits at the 's', fails to parse "1m" as an
integer, and returns None. -/
theorem C9_counterexample :
    parseFirstUnit ("1ms".data) = some (.Minute 1) ∧
    Granularity.parse ("1ms".data) = none := by
  decide

/-- Claim C9 (amended): the unit is selected by checking for the presence
of an 's' anywhere in the string first, then 'm', then 'h', splitting at
the first occurrence of the selected letter; parse rejects prefixes that
are not positive integers (zero, negative, non-numeric) and strings with
none of the three unit letters. -/
theorem C9_parse_amended :
    (∀ text : List Char, 's' ∉ text → 'm' ∉ text → 'h' ∉ text →
      Granularity.parse text = none) ∧
    (∀ pre suf : List Char, 's' ∉ pre →
      (parseU32 pre = none ∨ parseU32 pre = some 0) →
      Granularity.parse (pre ++ 's' :: suf) = none) ∧
    (∀ pre suf : List Char, 's' ∉ pre → 's' ∉ suf → 'm' ∉ pre →
      (parseU32 pre = none ∨ parseU32 pre = some 0) →
      Granularity.parse (pre ++ 'm' :: suf) = none) ∧
    (∀ pre suf : List Char, 's' ∉ pre → 's' ∉ suf → 'm' ∉ pre → 'm' ∉ suf → 'h' ∉ pre →
      (parseU32 pre = none ∨ parseU32 pre = some 0) →
      Granularity.parse (pre ++ 'h' :: suf) = none) ∧
    Granularity.parse ("5s".data) = some (.Second 5) ∧
    Granularity.parse ("3m".data) = some (.Minute 3) ∧
    Granularity.parse ("2h".data) = some (.Hour 2) ∧
    Granularity.parse ("0s".data) = none ∧
    Granularity.parse ("0m".data) = none ∧
    Granularity.parse ("0h".data) = none ∧
    Granularity.parse ("-1s".data) = none ∧
    Granularity.parse ("1".data) = none ∧
    Granularity.parse ("1hs".data) = none ∧
    Granularity.parse ("1hm".data) = none := by
  refine ⟨?_, ?_, ?_, ?_, by decide, by decide, by decide, by decide, by decide, by decide,
    by decide, by decide, by decide, by decide⟩
  · intro text hs hm hh
    simp [Granularity.parse, findChar_eq_none hs, findChar_eq_none hm, findChar_eq_none hh]
  · intro pre suf hs hbad
    simp only [Granularity.parse, findChar_append_self hs, take_length_append]
    exact toUnit_rejects _ hbad
  · intro pre suf hs1 hs2 hm hbad
    have hsall : 's' ∉ pre ++ 'm' :: suf := by
      simp [hs1, hs2]
    simp only [Granularity.parse, findChar_eq_none hsall, findChar_append_self hm,
      take_length_append]
    exact toUnit_rejects _ hbad
  · intro pre suf hs1 hs2 hm1 hm2 hh hbad
    have hsall : 's' ∉ pre ++ 'h' :: suf := by
      simp [hs1, hs2]
    have hmall : 'm' ∉ pre ++ 'h' :: suf := by
      simp [hm1, hm2]
    simp only [Granularity.parse, findChar_eq_none hsall, findChar_eq_none hmall,
      findChar_append_self hh, take_length_append]
    exact toUnit_rejects _ hbad

/-- Witness for C9 (amended): "1xy" contains no unit letter and is
rejected. -/
theorem C9_witness : Granularity.parse ("1xy".data) = none :=
  C9_parse_amended.1 "1xy".data (by decide) (by decide) (by decide)

/-- Chrono Numeric specifier kinds reaching this code: the first eight are
the ones the repository supports; the rest are representative recognized
kinds the repository rejects (chrono has more, all hitting the same
wildcard arm). -/
inductive NumericKind where
  | Year
  | Month
  | Day
  | Hour
  | Hour12
  | Minute
  | Second
  | Timestamp
  | Ordinal
  | IsoYear
  | WeekFromSun
  | Nanosecond
deriving DecidableEq

/-- Chrono Pad values carried by Numeric items (the repository ignores
them). -/
inductive Pad where
  | padNone
  | padZero
  | padSpace
deriving DecidableEq

/-- Chrono Fixed specifier kinds reaching this code: four supported, the
rest representative rejected ones. -/
inductive FixedKind where
  | ShortMonthName
  | LongMonthName
  | LowerAmPm
  | UpperAmPm
  | ShortWeekdayName
  | LongWeekdayName
  | TimezoneName
  | RFC3339
deriving DecidableEq

/-- Chrono's format Item as yielded by the StrftimeItems tokenizer; Error is
what the tokenizer yields for a specifier it does not recognize. -/
inductive Item where
  | Literal (s : List Char)
  | Space (s : List Char)
  | Numeric (n : NumericKind) (p : Pad)
  | Fixed (f : FixedKind)
  | Error
deriving DecidableEq

/-- Mirrors enum FormatItem of src/main.rs (the owned Item without Error). -/
inductive FormatItem where
  | Literal (s : List Char)
  | Space (s : List Char)
  | Numeric (n : NumericKind) (p : Pad)
  | Fixed (f : FixedKind)
deriving DecidableEq

/-- Mirrors numeric_format_to_regex_fragment of src/main.rs. -/
def numeric_format_to_regex_fragment (numeric : NumericKind) (_pad : Pad) : Option (List Char) :=
  match numeric with
  | .Year => some ("-?\\d+".data)
  | .Month | .Day | .Hour | .Hour12 | .Minute | .Second => some ("\\d{2}".data)
  | .Timestamp => some ("\\d+".data)
  | _ => none

/-- Mirrors numeric_format_to_default_value of src/main.rs. -/
def numeric_format_to_default_value (numeric : NumericKind) (_pad : Pad) : Option (List Char) :=
  match numeric with
  | .Year => some ("0001".data)
  | .Month | .Day | .Hour12 => some ("01".data)
  | .Hour | .Minute | .Second => some ("00".data)
  | .Timestamp => some ("000000000".data)
  | _ => none

/-- Mirrors fixed_format_to_regex_fragment of src/main.rs. -/
def fixed_format_to_regex_fragment (fixed : FixedKind) : Option (List Char) :=
  match fixed with
  | .ShortMonthName => some ("Jan|Feb|Mar|Apr|May|Jun|Jul|Aug|Sep|Oct|Nov|Dec".data)
  | .LongMonthName => some
      ("Jan(uary)?|Feb(ruary)?|Mar(ch)?|Apr(il)?|May|June?|July?|Aug(ust)?|Sep(tember)?|Oct(ober)?|Nov(ember)?|Dec(ember)?".data)
  | .LowerAmPm | .UpperAmPm => some ("am|AM|pm|PM".data)
  | _ => none

/-- Mirrors fixed_format_to_default_value of src/main.rs. -/
def fixed_format_to_default_value (fixed : FixedKind) : Option (List Char) :=
  match fixed with
  | .ShortMonthName => some ("Jan".data)
  | .LongMonthName => some ("January".data)
  | .LowerAmPm => some ("am".data)
  | .UpperAmPm => some ("AM".data)
  | _ => none

/-- Mirrors FormatItem::from_chrono; the none result models the
unimplemented!() panic the source raises on Item::Error. -/
def FormatItem.from_chrono : Item → Option FormatItem
  | .Literal s => some (.Literal s)
  | .Space s => some (.Space s)
  | .Numeric n p => some (.Numeric n p)
  | .Fixed f => some (.Fixed f)
  | .Error => none

/-- The per-item support check folded into items_supported by
DateTimeFormat::new (Item::Error falls into the wildcard arm and counts as
supported). -/
def itemSupported : Item → Bool
  | .Numeric n p => (numeric_format_to_regex_fragment n p).isSome
  | .Fixed f => (fixed_format_to_regex_fragment f).isSome
  | _ => true

def isErrorItem : Item → Bool
  | .Error => true
  | _ => false

/-- Possible outcomes of DateTimeFormat::new on a tokenized format. -/
inductive NewResult where
  | ok (items : List FormatItem)
  | unsupported
  | panicked
deriving DecidableEq

/-- Mirrors DateTimeFormat::new over the tokenizer's item stream: the
collect runs FormatItem::from_chrono on every item, so any Error item
panics (unimplemented!()) before the items_supported flag is consulted;
otherwise None (unsupported) when some recognized item is outside the
supported set, else the compiled item list. -/
def DateTimeFormat.new (items : List Item) : NewResult :=
  if items.any isErrorItem then .panicked
  else if items.all itemSupported then .ok (items.filterMap FormatItem.from_chrono)
  else .unsupported

/-- Chrono's Parsed field set, restricted to the fields the supported
specifiers can write. -/
structure Parsed where
  year : Option Int := none
  month : Option Nat := none
  day : Option Nat := none
  hour24 : Option Nat := none
  hour12 : Option Nat := none
  isPM : Option Bool := none
  minute : Option Nat := none
  second : Option Nat := none
  timestamp : Option Nat := none
deriving DecidableEq

def Parsed.empty : Parsed := {}

/-- Record a field value, failing on a conflicting duplicate (chrono's
set_ functions reject inconsistent re-assignment). -/
def setF {α : Type} [DecidableEq α] (cur : Option α) (v : α) : Option (Option α) :=
  match cur with
  | none => some (some v)
  | some w => if w = v then some (some v) else none

def digitVal (c : Char) : Nat := c.toNat - 48

def readUnsigned (s : List Char) : Option (Nat × List Char) :=
  match s.takeWhile Char.isDigit with
  | [] => none
  | ds => some (digitsToNat ds, s.dropWhile Char.isDigit)

def readSigned (s : List Char) : Option (Int × List Char) :=
  match s with
  | '-' :: rest =>
    match readUnsigned rest with
    | some (v, r) => some (-(v : Int), r)
    | none => none
  | _ =>
    match readUnsigned s with
    | some (v, r) => some ((v : Int), r)
    | none => none

def read2Digits (s : List Char) : Option (Nat × List Char) :=
  match s with
  | a :: b :: rest =>
    if a.isDigit then
      if b.isDigit then some (10 * digitVal a + digitVal b, rest)
      else some (digitVal a, b :: rest)
    else none
  | [a] => if a.isDigit then some (digitVal a, []) else none
  | [] => none

/-- Strip an exact expected character sequence from the front of the text. -/
def dropExact : List Char → List Char → Option (List Char)
  | [], s => some s
  | c :: cs, x :: xs => if c = x then dropExact cs xs else none
  | _ :: _, [] => none

def shortMonthTable : List (List Char × Nat) :=
  [("Jan".data, 1), ("Feb".data, 2), ("Mar".data, 3), ("Apr".data, 4), ("May".data, 5),
   ("Jun".data, 6), ("Jul".data, 7), ("Aug".data, 8), ("Sep".data, 9), ("Oct".data, 10),
   ("Nov".data, 11), ("Dec".data, 12)]

def longMonthTable : List (List Char × Nat) :=
  [("January".data, 1), ("February".data, 2), ("March".data, 3), ("April".data, 4),
   ("May".data, 5), ("June".data, 6), ("July".data, 7), ("August".data, 8),
   ("September".data, 9), ("October".data, 10), ("November".data, 11), ("December".data, 12)]
  ++ shortMonthTable

def tryNames : List (List Char × Nat) → List Char → Option (Nat × List Char)
  | [], _ => none
  | (nm, v) :: rest, s =>
    match dropExact nm s with
    | some r => some (v, r)
    | none => tryNames rest s

def readAmPm (s : List Char) : Option (Bool × List Char) :=
  match dropExact ("am".data) s with
  | some r => some (false, r)
  | none =>
    match dropExact ("AM".data) s with
    | some r => some (false, r)
    | none =>
      match dropExact ("pm".data) s with
      | some r => some (true, r)
      | none =>
        match dropExact ("PM".data) s with
        | some r => some (true, r)
        | none => none

/-- Modelled from the spec: chrono's format parser (format/parse.rs) is not
part of this repository.  Parse one format item from the front of the text
and record the calendar field it carries, per the design's §4.1/§4.2:
numeric items read their digits (year with an optional sign, two-digit
fields at most two digits), named items match the recognized names,
whitespace items skip whitespace, literals match exactly; out-of-range
values and conflicting duplicates are parse failures. -/
def parseItem : FormatItem → List Char → Parsed → Option (Parsed × List Char)
  | .Literal lit, s, p => (dropExact lit s).map (fun r => (p, r))
  | .Space _, s, p => some (p, s.dropWhile (fun c => c.isWhitespace))
  | .Numeric k _, s, p =>
    match k with
    | .Year =>
      (readSigned s).bind (fun vr =>
        (setF p.year vr.1).map (fun f => ({p with year := f}, vr.2)))
    | .Month =>
      (read2Digits s).bind (fun vr =>
        if 1 ≤ vr.1 ∧ vr.1 ≤ 12 then
          (setF p.month vr.1).map (fun f => ({p with month := f}, vr.2))
        else none)
    | .Day =>
      (read2Digits s).bind (fun vr =>
        if 1 ≤ vr.1 ∧ vr.1 ≤ 31 then
          (setF p.day vr.1).map (fun f => ({p with day := f}, vr.2))
        else none)
    | .Hour =>
      (read2Digits s).bind (fun vr =>
        if vr.1 ≤ 23 then
          (setF p.hour24 vr.1).map (fun f => ({p with hour24 := f}, vr.2))
        else none)
    | .Hour12 =>
      (read2Digits s).bind (fun vr =>
        if 1 ≤ vr.1 ∧ vr.1 ≤ 12 then
          (setF p.hour12 vr.1).map (fun f => ({p with hour12 := f}, vr.2))
        else none)
    | .Minute =>
      (read2Digits s).bind (fun vr =>
        if vr.1 ≤ 59 then
          (setF p.minute vr.1).map (fun f => ({p with minute := f}, vr.2))
        else none)
    | .Second =>
      (read2Digits s).bind (fun vr =>
        if vr.1 ≤ 60 then
          (setF p.second vr.1).map (fun f => ({p with second := f}, vr.2))
        else none)
    | .Timestamp =>
      (readUnsigned s).bind (fun vr =>
        (setF p.timestamp vr.1).map (fun f => ({p with timestamp := f}, vr.2)))
    | _ => none
  | .Fixed f, s, p =>
    match f with
    | .ShortMonthName =>
      (tryNames shortMonthTable s).bind (fun vr =>
        (setF p.month vr.1).map (fun f2 => ({p with month := f2}, vr.2)))
    | .LongMonthName =>
      (tryNames longMonthTable s).bind (fun vr =>
        (setF p.month vr.1).map (fun f2 => ({p with month := f2}, vr.2)))
    | .LowerAmPm | .UpperAmPm =>
      (readAmPm s).bind (fun vr =>
        (setF p.isPM vr.1).map (fun f2 => ({p with isPM := f2}, vr.2)))
    | _ => none

/-- Modelled from the spec: chrono's parse requires all items to match and
the whole text to be consumed (trailing input is an error). -/
def parseAll : List FormatItem → List Char → Parsed → Option Parsed
  | [], s, p => if s.isEmpty then some p else none
  | it :: rest, s, p =>
    match parseItem it s p with
    | some pr => parseAll rest pr.2 pr.1
    | none => none

/-- Modelled from the spec: Parsed::to_datetime_with_timezone(&Utc)
resolves a full calendar date-time when a unix timestamp is present, or
when year, month, day, minute, and an hour (24-hour directly, or 12-hour
together with an am/pm marker) are all present; a missing second resolves
to zero, matching the repository's own has_enough_info test over the
tokens of a seconds-free format. -/
def Parsed.resolveFull (p : Parsed) : Bool :=
  p.timestamp.isSome ||
    (p.year.isSome && p.month.isSome && p.day.isSome && p.minute.isSome &&
      (p.hour24.isSome || (p.hour12.isSome && p.isPM.isSome)))

/-- Mirrors DateTimeFormat::try_parse reduced to its success bit: parse the
text against the item list and resolve to a full UTC date-time. -/
def DateTimeFormat.try_parse (items : List FormatItem) (text : List Char) : Bool :=
  match parseAll items text Parsed.empty with
  | some p => p.resolveFull
  | none => false

def itemDefault : FormatItem → Option (List Char)
  | .Literal s => some s
  | .Space s => some s
  | .Numeric n p => numeric_format_to_default_value n p
  | .Fixed f => fixed_format_to_default_value f

/-- The dummy string DateTimeFormat::has_enough_info builds: each field
token contributes its fixed default value, literal and whitespace tokens
their own text, in original order; none models the .expect panic when an
unsupported kind slipped through. -/
def default_values (items : List FormatItem) : Option (List Char) :=
  items.foldr (fun it acc => (itemDefault it).bind (fun s => acc.map (fun r => s ++ r)))
    (some [])

/-- Mirrors DateTimeFormat::has_enough_info: build the dummy string, then
report whether try_parse succeeds on it. -/
def DateTimeFormat.has_enough_info (items : List FormatItem) : Option Bool :=
  (default_values items).map (DateTimeFormat.try_parse items)

/-- Token list of the format "%Y-%m-%d %H:%M:%S". -/
def ymdhmsItems : List FormatItem :=
  [.Numeric .Year .padZero, .Literal ("-".data), .Numeric .Month .padZero,
   .Literal ("-".data), .Numeric .Day .padZero, .Space (" ".data),
   .Numeric .Hour .padZero, .Literal (":".data), .Numeric .Minute .padZero,
   .Literal (":".data), .Numeric .Second .padZero]

/-- Token list of the format "%H:%M". -/
def hourMinuteItems : List FormatItem :=
  [.Numeric .Hour .padZero, .Literal (":".data), .Numeric .Minute .padZero]

/-- Claim C7: has_enough_info returns true exactly when the synthetic
string built from the per-kind default values and the literal/whitespace
text parses to a full UTC date-time; in particular the token list of
"%Y-%m-%d %H:%M:%S" is complete and the token list of "%H:%M" is not. -/
theorem C7_has_enough_info :
    (∀ (items : List FormatItem) (s : List Char), default_values items = some s →
      (DateTimeFormat.has_enough_info items = some true ↔
        DateTimeFormat.try_parse items s = true)) ∧
    DateTimeFormat.has_enough_info ymdhmsItems = some true ∧
    DateTimeFormat.has_enough_info hourMinuteItems = some false := by
  refine ⟨?_, by decide, by decide⟩
  intro items s hs
  simp [DateTimeFormat.has_enough_info, hs]

/-- Witness for C7 at the token list of "%Y-%m-%d %H:%M:%S", whose
synthetic string is "0001-01-01 00:00:00". -/
theorem C7_witness :
    DateTimeFormat.has_enough_info ymdhmsItems = some true ↔
      DateTimeFormat.try_parse ymdhmsItems ("0001-01-01 00:00:00".data) = true :=
  C7_has_enough_info.1 ymdhmsItems ("0001-01-01 00:00:00".data) (by decide)

/-- Claim C8 (failing input evaluation): a specifier the strftime tokenizer
does not recognize reaches DateTimeFormat::new as an Item::Error, and new
panics in FormatItem::from_chrono (unimplemented!()) instead of returning
None; recognized but unsupported specifiers (for example ordinal day or a
timezone name) do yield None, and a fully supported list compiles. -/
theorem C8_unrecognized_specifier_panics :
    DateTimeFormat.new [.Error] = .panicked ∧
    DateTimeFormat.new [.Numeric .Ordinal .padZero] = .unsupported ∧
    DateTimeFormat.new [.Fixed .TimezoneName] = .unsupported ∧
    DateTimeFormat.new [.Numeric .Year .padZero] = .ok [.Numeric .Year .padZero] ∧
    NewResult.panicked ≠ NewResult.unsupported := by
  decide

end Tbuck
